import Mathlib

/-!
Verification development for the Juris 0.8.1 reactive state/render engine
(src/lib/juris.0.8.1.js).  The definitions below are a shallow embedding of
the StateManager (paths, deepEquals, getState/setState, batching, subscriber
notification), the promise-tracking utility, the component-local-state
initializer, and the reactive text/children update steps of the DOMRenderer.
Machine behaviour that the claims depend on (JavaScript loose/strict
equality, Symbol identity, block scoping of `const` inside a try block) is
modelled explicitly where it matters; logging is not modelled.
-/

namespace Juris

/-- JavaScript values as they occur in the Juris state tree: undefined, null,
booleans, numbers (modelled as integers; the claims use only integral
numbers and NaN is not modelled), strings, arrays, plain objects (ordered
field lists, JS objects cannot hold a key twice), and symbols (identified by
a freshness counter: `Symbol(desc)` yields a value strictly-equal only to
itself). -/
inductive JSValue where
  | undefinedV : JSValue
  | null : JSValue
  | bool (b : Bool) : JSValue
  | num (n : Int) : JSValue
  | str (s : String) : JSValue
  | arr (xs : List JSValue) : JSValue
  | obj (fields : List (String × JSValue)) : JSValue
  | sym (id : Nat) : JSValue

/-- First binding of a key in an object's field list (JS property lookup). -/
def lookupField : List (String × JSValue) → String → Option JSValue
  | [], _ => none
  | (k, v) :: rest, key => if k == key then some v else lookupField rest key

/-- Replace the first binding of a key, keeping its position, or append a new
binding (JS property assignment on a plain object). -/
def setField : List (String × JSValue) → String → JSValue → List (String × JSValue)
  | [], key, v => [(key, v)]
  | (k, w) :: rest, key, v =>
      if k == key then (key, v) :: rest else (k, w) :: setField rest key v

mutual
/-- Shallow embedding of the source's `deepEquals` (juris.0.8.1.js lines
67-77): strict equality on primitives, `a == null || typeof a !== typeof b`
rejection, array tag check, key-set comparison plus recursive field
comparison for objects. -/
def deepEquals : JSValue → JSValue → Bool
  | .undefinedV, b => match b with | .undefinedV => true | _ => false
  | .null, b => match b with | .null => true | _ => false
  | .bool a, b => match b with | .bool c => a == c | _ => false
  | .num a, b => match b with | .num c => a == c | _ => false
  | .str a, b => match b with | .str c => a == c | _ => false
  | .sym a, b => match b with | .sym c => a == c | _ => false
  | .arr as, b => match b with | .arr bs => deepEqualsList as bs | _ => false
  | .obj as, b => match b with
      | .obj bs => as.length == bs.length && deepEqualsFields as bs
      | _ => false

/-- Elementwise comparison of arrays (index keys, equal lengths). -/
def deepEqualsList : List JSValue → List JSValue → Bool
  | [], [] => true
  | [], _ :: _ => false
  | _ :: _, [] => false
  | a :: as, b :: bs => deepEquals a b && deepEqualsList as bs

/-- The source's `keysA.every(key => keysB.includes(key) && deepEquals(a[key],
b[key]))`: every field of the first object must appear in the second with a
deep-equal value. -/
def deepEqualsFields : List (String × JSValue) → List (String × JSValue) → Bool
  | [], _ => true
  | (k, v) :: rest, bs =>
      (match lookupField bs k with
        | some w => deepEquals v w
        | none => false) && deepEqualsFields rest bs
end

/-- Occurrence of two consecutive dots (`path.includes('..')`). -/
def hasDotDot : List Char → Bool
  | [] => false
  | [_] => false
  | a :: b :: rest => (a == '.' && b == '.') || hasDotDot (b :: rest)

/-- Path validity (source line 64): a string whose trim is non-empty (that
is, containing some non-whitespace character) and not containing the
substring `..`. -/
def isValidPath (path : String) : Bool :=
  path.toList.any (fun c => !c.isWhitespace) && !hasDotDot path.toList

/-- Split a character list at dots, keeping empty pieces
(`String.prototype.split('.')`). -/
def splitDots : List Char → List (List Char)
  | [] => [[]]
  | c :: rest =>
    match splitDots rest with
    | [] => [[]]
    | piece :: pieces =>
        if c == '.' then [] :: piece :: pieces else (c :: piece) :: pieces

/-- Path segmentation (source line 65): split on dots, drop empty pieces
(`filter(Boolean)`). -/
def getPathParts (path : String) : List String :=
  ((splitDots path.toList).map (fun cs => String.mk cs)).filter (fun p => p ≠ "")

/-- Prefix test on character lists. -/
def listIsPrefix : List Char → List Char → Bool
  | [], _ => true
  | _ :: _, [] => false
  | a :: as, b :: bs => a == b && listIsPrefix as bs

/-- `String.prototype.startsWith`. -/
def strStartsWith (s pfx : String) : Bool :=
  listIsPrefix pfx.toList s.toList

/-- JS property read `container[key]` as used by the state traversals:
object field lookup, array `length`/index access, string `length`; every
other access (including on null/undefined via optional chaining) yields
undefined. -/
def getProp : JSValue → String → JSValue
  | .obj fs, key => (lookupField fs key).getD .undefinedV
  | .arr xs, key =>
      if key == "length" then .num xs.length
      else match key.toNat? with
        | some i => xs.getD i .undefinedV
        | none => .undefinedV
  | .str s, key => if key == "length" then .num s.length else .undefinedV
  | _, _ => .undefinedV

/-- JS property write `container[key] = v` as exercised by the state write
path: field update on objects, in-range index update on arrays (sparse
extension and named array properties are outside the model and leave the
array unchanged); the write loop only ever targets objects it created or
found, so the primitive fallthrough is unreachable from `setIn`. -/
def setProp : JSValue → String → JSValue → JSValue
  | .obj fs, key, v => .obj (setField fs key v)
  | .arr xs, key, v =>
      (match key.toNat? with
        | some i => if i < xs.length then .arr (xs.set i v) else .arr xs
        | none => .arr xs)
  | c, _, _ => c

/-- Traversal loop of `getState` (source lines 178-184): walk the parts,
returning none as soon as `current?.[part] === undefined`. -/
def getStateGo : JSValue → List String → Option JSValue
  | current, [] => some current
  | current, part :: rest =>
      match getProp current part with
      | .undefinedV => none
      | nxt => getStateGo nxt rest

/-- Value returned by `getState(path, defaultValue)` on a given tree:
default on invalid path or on a failed traversal. -/
def getStateVal (root : JSValue) (path : String) (defaultValue : JSValue) : JSValue :=
  if isValidPath path then (getStateGo root (getPathParts path)).getD defaultValue
  else defaultValue

/-- The intermediate-record rule of the write loop (source line 372):
`if (current[part] == null || typeof current[part] !== 'object') current[part] = {}`
— an existing object or array child is kept, anything else becomes `{}`. -/
def normChild : JSValue → JSValue
  | .obj fs => .obj fs
  | .arr xs => .arr xs
  | _ => .obj []

/-- Mutation loop of `_setStateImmediate` (source lines 368-375): walk all
parts but the last, replacing a missing or non-object intermediate with a
fresh `{}`, then assign the final value under the last part.  An empty part
list (possible for the degenerate valid path `"."`) makes the source assign
`current[undefined]`, i.e. the string key `"undefined"`. -/
def setIn : JSValue → List String → JSValue → JSValue
  | current, [], v => setProp current "undefined" v
  | current, [last], v => setProp current last v
  | current, part :: rest, v =>
      setProp current part (setIn (normChild (getProp current part)) rest v)

/-- First value bound to a string key in an association list (JS Map get /
Set-backed registries preserve insertion order, which the list order
models). -/
def lookupList {α : Type} : List (String × α) → String → Option α
  | [], _ => none
  | (k, v) :: rest, key => if k == key then some v else lookupList rest key

/-- JavaScript exceptions that the modelled code can raise. -/
inductive JSException where
  | userError : JSException
  | referenceError (name : String) : JSException

/-- Observable events of a StateManager run: tree mutations, queued batch
writes, writes dropped by the cycle guard, caught middleware/subscriber
errors, and internal/external subscriber invocations. -/
inductive Event where
  | mutated (path : String) (value : JSValue)
  | queued (path : String) (value : JSValue)
  | droppedCircular (path : String)
  | mwError (path : String)
  | cbError (cb : Nat)
  | internalNotify (path : String) (cb : Nat)
  | externalNotify (subscribedPath : String) (cb : Nat) (newValue oldValue : JSValue)
      (changedPath : String)

/-- Mutable fields of a StateManager instance that the claims touch
(juris.0.8.1.js lines 142-163).  Internal subscribers are callback ids per
path; external subscribers carry the hierarchical flag.  `currentTracking`
is the dependency-tracking set (`None` when no tracking scope is active). -/
structure SMState where
  state : JSValue
  isUpdating : Bool
  currentlyUpdating : List String
  isBatching : Bool
  batchQueue : List (String × JSValue)
  batchedPaths : List String
  subscribers : List (String × List Nat)
  externalSubscribers : List (String × List (Nat × Bool))
  currentTracking : Option (List String)

/-- Behaviour of a subscriber callback: run to completion, throw, or make a
synchronous re-entrant `setState` call.  The modelled callbacks read no
state paths, so the dependency re-registration step of
`_triggerPathSubscribers` (which re-subscribes the paths collected in
`newTracking`) operates on an empty set and is omitted. -/
inductive CbBehavior where
  | pure : CbBehavior
  | throws : CbBehavior
  | setsState (path : String) (value : JSValue) : CbBehavior

/-- Behaviour of a middleware function, which receives
`{path, oldValue, newValue, context, state}` and may return a replacement
value or `undefined` (keep): return undefined, return a constant, throw, or
synchronously call `setState` on the very path being transformed
(unconditionally, or only when the incoming `newValue` differs from the
value it writes). -/
inductive MwBehavior where
  | keep : MwBehavior
  | constVal (v : JSValue) : MwBehavior
  | throws : MwBehavior
  | setsSamePath (v : JSValue) : MwBehavior
  | setsSamePathIfDiff (v : JSValue) : MwBehavior

/-- Configuration fixed at StateManager construction: the ordered middleware
chain and the behaviour of each callback id. -/
structure Config where
  middleware : List MwBehavior
  cbBehavior : Nat → CbBehavior

/-- Result of running a modelled operation: normal completion, an uncaught
JS exception escaping to the caller (with the manager state and events at
that point), or exhaustion of the recursion fuel (standing for unbounded
synchronous recursion). -/
inductive Outcome where
  | ok (s : SMState) (events : List Event) : Outcome
  | thrown (e : JSException) (s : SMState) (events : List Event) : Outcome
  | outOfFuel : Outcome

/-- A runner performs a nested `setState` call (tying the re-entrancy knot
with one unit of fuel). -/
abbrev Runner := SMState → String → JSValue → Outcome

/-- Result of the middleware chain: the possibly transformed value, or fuel
exhaustion inside a re-entrant call. -/
inductive MwRes where
  | done (s : SMState) (events : List Event) (finalValue : JSValue) : MwRes
  | fuel : MwRes

/-- The middleware loop of `_setStateImmediate` (source lines 352-359): each
middleware runs in order inside its own try/catch; a non-undefined return
value replaces the pending value; a thrown error (including one propagating
out of a nested `setState` made by the middleware) is caught and logged and
that middleware's effect is skipped. -/
def runMwChain (run : Runner) (mws : List MwBehavior) (path : String) :
    SMState → List Event → JSValue → MwRes
  | s, events, finalValue =>
    match mws with
    | [] => .done s events finalValue
    | mw :: rest =>
      match mw with
      | .keep => runMwChain run rest path s events finalValue
      | .constVal v =>
          let fv := match v with | .undefinedV => finalValue | w => w
          runMwChain run rest path s events fv
      | .throws => runMwChain run rest path s (events ++ [.mwError path]) finalValue
      | .setsSamePath v =>
          match run s path v with
          | .ok s1 evs => runMwChain run rest path s1 (events ++ evs) finalValue
          | .thrown _ s1 evs =>
              runMwChain run rest path s1 (events ++ evs ++ [.mwError path]) finalValue
          | .outOfFuel => .fuel
      | .setsSamePathIfDiff v =>
          if deepEquals finalValue v then runMwChain run rest path s events finalValue
          else
            match run s path v with
            | .ok s1 evs => runMwChain run rest path s1 (events ++ evs) finalValue
            | .thrown _ s1 evs =>
                runMwChain run rest path s1 (events ++ evs ++ [.mwError path]) finalValue
            | .outOfFuel => .fuel

/-- The per-callback loop of `_triggerPathSubscribers` (source lines
454-471).  On success the tracking set is saved, replaced, and restored
around the callback.  When the callback throws, the catch block (line
467-470) logs and then executes `this.currentTracking = oldTracking`; but
`oldTracking` is a `const` declared inside the try block (line 456) and is
not in scope in the catch block, so that assignment itself raises a
ReferenceError which propagates past every remaining subscriber of the
wave and out of the notification. -/
def runCbList (run : Runner) (cfg : Config) (path : String) :
    List Nat → SMState → List Event → Outcome
  | [], s, events => .ok s events
  | cb :: rest, s, events =>
    match cfg.cbBehavior cb with
    | .pure => runCbList run cfg path rest s (events ++ [.internalNotify path cb])
    | .throws =>
        .thrown (.referenceError "oldTracking") s
          (events ++ [.internalNotify path cb, .cbError cb])
    | .setsState p v =>
        match run s p v with
        | .ok s1 evs =>
            runCbList run cfg path rest s1 (events ++ [.internalNotify path cb] ++ evs)
        | .thrown _ s1 evs =>
            .thrown (.referenceError "oldTracking") s1
              (events ++ [.internalNotify path cb] ++ evs ++ [.cbError cb])
        | .outOfFuel => .outOfFuel

/-- `_triggerPathSubscribers` (source lines 449-473): run every internal
subscriber registered at exactly this path. -/
def triggerPathSubscribers (run : Runner) (cfg : Config) (path : String)
    (s : SMState) (events : List Event) : Outcome :=
  match lookupList s.subscribers path with
  | none => .ok s events
  | some cbs => runCbList run cfg path cbs s events

/-- Trigger a list of paths in order, stopping at the first uncaught
exception or fuel exhaustion. -/
def triggerPaths (run : Runner) (cfg : Config) :
    List String → SMState → List Event → Outcome
  | [], s, events => .ok s events
  | p :: rest, s, events =>
    match triggerPathSubscribers run cfg p s events with
    | .ok s1 evs => triggerPaths run cfg rest s1 evs
    | other => other

/-- `Array.prototype.join('.')` on path parts. -/
def joinDot : List String → String
  | [] => ""
  | [p] => p
  | p :: rest => p ++ "." ++ joinDot rest

/-- Ancestor paths closest-first, as produced by the loop
`for (let i = parts.length - 1; i > 0; i--) parts.slice(0, i).join('.')`
(source lines 420-422). -/
def ancestorsClosestFirst (parts : List String) : List String :=
  ((List.range parts.length).drop 1).reverse.map (fun i => joinDot (parts.take i))

/-- Set-construction from a list, keeping the first occurrence of each
element (JS Set insertion order). -/
def dedupKeepFirstAux (seen : List String) : List String → List String
  | [] => []
  | x :: rest =>
    if seen.contains x then dedupKeepFirstAux seen rest
    else x :: dedupKeepFirstAux (seen ++ [x]) rest

/-- Entry point of the first-occurrence deduplication. -/
def dedupKeepFirst (l : List String) : List String := dedupKeepFirstAux [] l

/-- The descendant scan of `_notifySubscribers` (source lines 423-429):
every registered internal or external subscriber path that extends
`path + "."`.  The modelled callbacks never change the subscription maps,
so computing the set up front coincides with the source's computation after
the ancestor loop. -/
def descendantPaths (s : SMState) (path : String) : List String :=
  let pfx := if path == "" then "" else path ++ "."
  let allPaths := dedupKeepFirst
    (s.subscribers.map Prod.fst ++ s.externalSubscribers.map Prod.fst)
  allPaths.filter (fun q => strStartsWith q pfx && q != path)

/-- `_notifySubscribers` (source lines 417-430): exact path first, then
ancestors closest-first, then registered proper-descendant paths. -/
def notifySubscribers (run : Runner) (cfg : Config) (path : String) (s : SMState) : Outcome :=
  triggerPaths run cfg
    (path :: (ancestorsClosestFirst (getPathParts path) ++ descendantPaths s path)) s []

/-- One external subscription list of `_notifyExternalSubscribers` (source
lines 433-446): a subscription fires when the changed path equals the
subscribed path, or extends it by a dot when the subscription is
hierarchical; the callback runs inside a try/catch whose handler only logs,
so an exception here never escapes and never stops later subscribers. -/
def runExtSubs (run : Runner) (cfg : Config) (changedPath : String)
    (newV oldV : JSValue) (subPath : String) :
    List (Nat × Bool) → SMState → List Event → Outcome
  | [], s, events => .ok s events
  | (cb, hier) :: rest, s, events =>
    let shouldNotify :=
      if hier then changedPath == subPath || strStartsWith changedPath (subPath ++ ".")
      else changedPath == subPath
    if shouldNotify then
      match cfg.cbBehavior cb with
      | .pure =>
          runExtSubs run cfg changedPath newV oldV subPath rest s
            (events ++ [.externalNotify subPath cb newV oldV changedPath])
      | .throws =>
          runExtSubs run cfg changedPath newV oldV subPath rest s
            (events ++ [.externalNotify subPath cb newV oldV changedPath, .cbError cb])
      | .setsState p v =>
          match run s p v with
          | .ok s1 evs =>
              runExtSubs run cfg changedPath newV oldV subPath rest s1
                (events ++ [.externalNotify subPath cb newV oldV changedPath] ++ evs)
          | .thrown _ s1 evs =>
              runExtSubs run cfg changedPath newV oldV subPath rest s1
                (events ++ [.externalNotify subPath cb newV oldV changedPath] ++ evs
                  ++ [.cbError cb])
          | .outOfFuel => .outOfFuel
    else runExtSubs run cfg changedPath newV oldV subPath rest s events

/-- Iteration over the external-subscriber map in insertion order. -/
def runExtMap (run : Runner) (cfg : Config) (changedPath : String) (newV oldV : JSValue) :
    List (String × List (Nat × Bool)) → SMState → List Event → Outcome
  | [], s, events => .ok s events
  | (subPath, subs) :: rest, s, events =>
    match runExtSubs run cfg changedPath newV oldV subPath subs s events with
    | .ok s1 evs => runExtMap run cfg changedPath newV oldV rest s1 evs
    | other => other

/-- `_notifyExternalSubscribers` (source lines 432-447). -/
def notifyExternalSubscribers (run : Runner) (cfg : Config) (changedPath : String)
    (newV oldV : JSValue) (s : SMState) : Outcome :=
  runExtMap run cfg changedPath newV oldV s.externalSubscribers s []

/-- `_setStateImmediate` (source lines 348-386): read the old value, run the
middleware chain, stop when the result deep-equals the old value, otherwise
mutate the tree; when no notification wave is already running, mark the
path as currently updating, notify internal then external subscribers, and
clear the marks — marks that stay set when an exception escapes the wave,
exactly as in the source, where the two clean-up lines never run. -/
def setStateImmediate (run : Runner) (cfg : Config) (s : SMState)
    (path : String) (v : JSValue) : Outcome :=
  let oldValue := getStateVal s.state path .null
  match runMwChain run cfg.middleware path s [] v with
  | .fuel => .outOfFuel
  | .done s1 evs1 finalValue =>
    if deepEquals oldValue finalValue then .ok s1 evs1
    else
      let s2 : SMState := { s1 with state := setIn s1.state (getPathParts path) finalValue }
      let evs2 := evs1 ++ [.mutated path finalValue]
      if s2.isUpdating then .ok s2 evs2
      else
        let s3 : SMState :=
          { s2 with isUpdating := true, currentlyUpdating := s2.currentlyUpdating ++ [path] }
        match notifySubscribers run cfg path s3 with
        | .outOfFuel => .outOfFuel
        | .thrown e s4 evs3 => .thrown e s4 (evs2 ++ evs3)
        | .ok s4 evs3 =>
          match notifyExternalSubscribers run cfg path finalValue oldValue s4 with
          | .outOfFuel => .outOfFuel
          | .thrown e s5 evs4 => .thrown e s5 (evs2 ++ evs3 ++ evs4)
          | .ok s5 evs4 =>
            .ok { s5 with currentlyUpdating := s5.currentlyUpdating.erase path,
                          isUpdating := false }
              (evs2 ++ evs3 ++ evs4)

/-- `_queueBatchedUpdate` (source lines 270-274): drop any queued entry for
the same path, append the new one (last write wins), record the path. -/
def queueBatchedUpdate (s : SMState) (path : String) (v : JSValue) : SMState :=
  { s with
    batchQueue := s.batchQueue.filter (fun u => u.1 ≠ path) ++ [(path, v)],
    batchedPaths :=
      if s.batchedPaths.contains path then s.batchedPaths else s.batchedPaths ++ [path] }

/-- `setState` (source lines 187-197): silently no-op on an invalid path;
drop the write with a warning when the path is in the currently-updating
set; queue it while batching; otherwise apply immediately.  Fuel bounds the
depth of synchronous re-entrant `setState` recursion. -/
def setStateF : Nat → Config → SMState → String → JSValue → Outcome
  | 0, _, _, _, _ => .outOfFuel
  | fuel + 1, cfg, s, path, v =>
    if !(isValidPath path) then .ok s []
    else if s.currentlyUpdating.contains path then .ok s [.droppedCircular path]
    else if s.isBatching then .ok (queueBatchedUpdate s path v) [.queued path v]
    else setStateImmediate (fun s1 p1 v1 => setStateF fuel cfg s1 p1 v1) cfg s path v

/-- The `pathGroups` map of `_processBatchedUpdates` (source lines 281-282):
a JS Map written once per queued update, so each key keeps its first
insertion position and its last written value. -/
def mapSetAll : List (String × JSValue) → List (String × JSValue) → List (String × JSValue)
  | acc, [] => acc
  | acc, (p, v) :: rest =>
    if (acc.map Prod.fst).contains p then
      mapSetAll (acc.map fun kv => if kv.1 == p then (p, v) else kv) rest
    else mapSetAll (acc ++ [(p, v)]) rest

/-- Result of the apply loop of `_processBatchedUpdates`: the state, events,
and the list of applied (actually mutated) paths in order. -/
inductive BatchApplyRes where
  | done (s : SMState) (events : List Event) (applied : List String) : BatchApplyRes
  | fuel : BatchApplyRes

/-- The apply loop of `_processBatchedUpdates` (source lines 289-319): per
path, read the old value, run middleware, skip when the result deep-equals
the old value, otherwise mutate the tree and record the path as applied. -/
def applyBatchUpdates (run : Runner) (cfg : Config) :
    List (String × JSValue) → SMState → List Event → List String → BatchApplyRes
  | [], s, events, applied => .done s events applied
  | (p, v) :: rest, s, events, applied =>
    let oldValue := getStateVal s.state p .null
    match runMwChain run cfg.middleware p s events v with
    | .fuel => .fuel
    | .done s1 evs1 finalValue =>
      if deepEquals oldValue finalValue then
        applyBatchUpdates run cfg rest s1 evs1 applied
      else
        applyBatchUpdates run cfg rest
          { s1 with state := setIn s1.state (getPathParts p) finalValue }
          (evs1 ++ [.mutated p finalValue]) (applied ++ [p])

/-- The external notification of one batch parent path (source lines
335-343): every subscription registered at the path is called with
`(getState(path), null, path)`, regardless of its hierarchical flag, inside
a logging-only try/catch. -/
def extNotifyBatchSubs (run : Runner) (cfg : Config) (path : String) :
    List (Nat × Bool) → SMState → List Event → Outcome
  | [], s, events => .ok s events
  | (cb, _) :: rest, s, events =>
    let newV := getStateVal s.state path .null
    match cfg.cbBehavior cb with
    | .pure =>
        extNotifyBatchSubs run cfg path rest s
          (events ++ [.externalNotify path cb newV .null path])
    | .throws =>
        extNotifyBatchSubs run cfg path rest s
          (events ++ [.externalNotify path cb newV .null path, .cbError cb])
    | .setsState p2 v2 =>
        match run s p2 v2 with
        | .ok s1 evs =>
            extNotifyBatchSubs run cfg path rest s1
              (events ++ [.externalNotify path cb newV .null path] ++ evs)
        | .thrown _ s1 evs =>
            extNotifyBatchSubs run cfg path rest s1
              (events ++ [.externalNotify path cb newV .null path] ++ evs ++ [.cbError cb])
        | .outOfFuel => .outOfFuel

/-- The notification loop of `_processBatchedUpdates` (source lines
332-344): per parent path, trigger internal subscribers, then call external
subscribers registered at exactly that path. -/
def notifyBatchPaths (run : Runner) (cfg : Config) :
    List String → SMState → List Event → Outcome
  | [], s, events => .ok s events
  | p :: rest, s, events =>
    match triggerPathSubscribers run cfg p s events with
    | .ok s1 evs1 =>
      (match extNotifyBatchSubs run cfg p ((lookupList s1.externalSubscribers p).getD []) s1 evs1 with
        | .ok s2 evs2 => notifyBatchPaths run cfg rest s2 evs2
        | other => other)
    | other => other

/-- Parent paths of one applied path (source lines 325-330): every prefix
of the parts, shortest first. -/
def parentPrefixPaths (parts : List String) : List String :=
  (List.range parts.length).map (fun i => joinDot (parts.take (i + 1)))

/-- `_processBatchedUpdates` (source lines 276-345): snapshot and clear the
queue, group by path (last write wins), set `isUpdating` around the apply
loop, then notify the union of parent paths of every applied path. -/
def processBatchedUpdates (run : Runner) (cfg : Config) (s : SMState) : Outcome :=
  let updates := s.batchQueue
  let s0 : SMState := { s with batchQueue := [], batchedPaths := [] }
  let groups := mapSetAll [] updates
  let wasUpdating := s0.isUpdating
  let s1 : SMState := { s0 with isUpdating := true }
  match applyBatchUpdates run cfg groups s1 [] [] with
  | .fuel => .outOfFuel
  | .done s2 evs applied =>
    let s3 : SMState := { s2 with isUpdating := wasUpdating }
    let parents := dedupKeepFirst (applied.flatMap (fun p => parentPrefixPaths (getPathParts p)))
    notifyBatchPaths run cfg parents s3 evs

/-- `beginBatch` (source lines 233-238). -/
def beginBatch (s : SMState) : SMState :=
  { s with isBatching := true, batchQueue := [], batchedPaths := [] }

/-- `endBatch` (source lines 240-252): warn and no-op when not batching,
otherwise leave batching mode and process the queue if non-empty. -/
def endBatchF (fuel : Nat) (cfg : Config) (s : SMState) : Outcome :=
  if !s.isBatching then .ok s []
  else
    let s1 : SMState := { s with isBatching := false }
    if s1.batchQueue.isEmpty then .ok s1 []
    else processBatchedUpdates (fun s2 p2 v2 => setStateF fuel cfg s2 p2 v2) cfg s1

/-- `getState` (source lines 175-185) as an operation on the manager state:
default on invalid path, record the path in the active tracking set when
`track` is set, then traverse.  The body performs no assignment to the
state tree; its only write is `currentTracking?.add(path)`. -/
def getStateOp (s : SMState) (path : String) (defaultValue : JSValue) (track : Bool) :
    JSValue × SMState :=
  if !(isValidPath path) then (defaultValue, s)
  else
    let s1 := if track then
        { s with currentTracking :=
            s.currentTracking.map (fun l => if l.contains path then l else l ++ [path]) }
      else s
    ((getStateGo s.state (getPathParts path)).getD defaultValue, s1)

/-- Observable effect of one `trackingPromisify(result)` call (source lines
106-118): `promise = result?.then ? result : Promise.resolve(result)`, and
the promise is added to `activePromises` when `isTracking && promise !==
result` — the fresh wrapper differs from `result` exactly when `result` was
not a thenable, while a thenable is returned as-is and compares equal to
itself. -/
structure PromisifyStep where
  wrapped : Bool
  addedToActive : Bool

/-- Decision logic of `trackingPromisify`, as a function of the tracking
flag and of whether the argument is a thenable (`result?.then` truthy). -/
def trackingPromisify (isTracking : Bool) (isThenable : Bool) : PromisifyStep :=
  let wrapped := !isThenable
  { wrapped := wrapped, addedToActive := isTracking && wrapped }

/-- Local-state path of a component key (source line 656). -/
def localStatePath (componentId key : String) : String :=
  "__local." ++ componentId ++ "." ++ key

/-- The lazy-initialization step of `context.newState` (source lines
655-659): `if (getState(statePath, Symbol('not-found')) ===
Symbol('not-found')) setState(statePath, initialValue)`.  The two
`Symbol('not-found')` calls create two distinct fresh symbols, modelled by
the consecutive ids `freshSym` and `freshSym + 1`; strict equality between
symbols holds only for the same symbol. -/
def newStateInit (root : JSValue) (componentId key : String) (initialValue : JSValue)
    (freshSym : Nat) : JSValue :=
  let statePath := localStatePath componentId key
  let probe := getStateVal root statePath (.sym freshSym)
  match probe with
  | .sym i =>
      if i == freshSym + 1 then setIn root (getPathParts statePath) initialValue else root
  | _ => root

/-- Closure state and element text of a reactive text binding
(`_handleReactiveText`, source lines 1533-1562): `lastTextValue` starts as
null (`none`), `isInitialized` false. -/
structure ReactiveTextState where
  lastTextValue : Option String
  isInitialized : Bool
  textContent : String

/-- The synchronous branch of `updateText` (source lines 1549-1554) for a
string-valued result: `if (!isInitialized || result !== lastTextValue)`
assign `element.textContent = result` and record it.  No sentinel value is
tested here: `_handleReactiveText` contains no `"ignore"` check. -/
def updateTextStep (st : ReactiveTextState) (result : String) : ReactiveTextState :=
  if !st.isInitialized || st.lastTextValue != some result then
    { lastTextValue := some result, isInitialized := true, textContent := result }
  else st

/-- Closure state and rendered-children description of a reactive children
binding (`_handleReactiveChildren`, source lines 1460-1489):
`lastChildrenResult` starts as null, `isInitialized` false;
`childrenContent` stands for the children currently installed on the
element by `_updateChildren`. -/
structure ReactiveChildrenState where
  lastChildrenResult : JSValue
  isInitialized : Bool
  childrenContent : JSValue

/-- The synchronous branch of `updateChildren` (source lines 1476-1482):
`if (result !== "ignore" && (!isInitialized || !deepEquals(result,
lastChildrenResult)))` rebuild the children; the strict comparison with the
string literal `"ignore"` holds only for that very string. -/
def updateChildrenStep (st : ReactiveChildrenState) (result : JSValue) :
    ReactiveChildrenState :=
  let isIgnore := match result with | .str s => s == "ignore" | _ => false
  if !isIgnore && (!st.isInitialized || !deepEquals result st.lastChildrenResult) then
    { lastChildrenResult := result, isInitialized := true, childrenContent := result }
  else st

/-- Keys with no duplicates (JS objects hold each key at most once). -/
def nodupKeys : List String → Bool
  | [] => true
  | k :: ks => !ks.contains k && nodupKeys ks

mutual
/-- Well-formedness of a modelled JS value: every object in it has pairwise
distinct keys — automatically true of any value a JavaScript program can
build, and an invariant of the embedding. -/
def WF : JSValue → Bool
  | .obj fs => nodupKeys (fs.map Prod.fst) && WFFields fs
  | .arr xs => WFList xs
  | _ => true

/-- Well-formedness of every element of an array. -/
def WFList : List JSValue → Bool
  | [] => true
  | x :: xs => WF x && WFList xs

/-- Well-formedness of every field value of an object. -/
def WFFields : List (String × JSValue) → Bool
  | [] => true
  | (_, v) :: rest => WF v && WFFields rest
end

/-- Containers met by the write loop along a path are plain objects (the
loop would otherwise descend into an array, whose string-keyed properties
the model does not carry).  Matches the traversal of `setIn`: a missing or
non-object child is replaced by `{}` before descending. -/
def objPath : JSValue → List String → Bool
  | c, [] => match c with | .obj _ => true | _ => false
  | c, [_] => match c with | .obj _ => true | _ => false
  | c, part :: rest =>
    (match c with | .obj _ => true | _ => false) &&
    objPath (normChild (getProp c part)) rest

/-- Count of internal-notification events delivered to a callback. -/
def internalNotifyCount (cb : Nat) (evs : List Event) : Nat :=
  (evs.filter (fun e => match e with
    | .internalNotify _ c => c == cb
    | _ => false)).length

/-- New values delivered to an external subscriber, in order. -/
def extValuesTo (cb : Nat) (evs : List Event) : List JSValue :=
  evs.filterMap (fun e => match e with
    | .externalNotify _ c nv _ _ => if c == cb then some nv else none
    | _ => none)

/-- Events delivered at one batch parent path `q` when the registries hold
exactly the internal subscriber `cbi` and the external subscriber `cbe`,
both at path `p`: a hit (`q = p`) produces one internal trigger and one
external call carrying the freshly read value. -/
def c3Block (p : String) (cbi cbe : Nat) (nv : JSValue) (q : String) : List Event :=
  if q == p then [.internalNotify p cbi, .externalNotify p cbe nv .null p] else []

/-- Any notification event (internal or external) addressed to a callback. -/
def notifiesCb (cb : Nat) : Event → Bool
  | .internalNotify _ c => c == cb
  | .externalNotify _ c _ _ _ => c == cb
  | _ => false

/-- A runner that performs no nested work; usable wherever the configured
callbacks never call `setState`. -/
def dummyRun : Runner := fun s _ _ => .ok s []

/-- A freshly constructed StateManager: given initial tree and subscriber
registries, no batch, no wave in progress, no tracking scope. -/
def baseSM (root : JSValue) (subs : List (String × List Nat))
    (exts : List (String × List (Nat × Bool))) : SMState :=
  { state := root, isUpdating := false, currentlyUpdating := [], isBatching := false,
    batchQueue := [], batchedPaths := [], subscribers := subs, externalSubscribers := exts,
    currentTracking := none }

/-- No middleware; every callback returns normally. -/
def pureCfg : Config := { middleware := [], cbBehavior := fun _ => .pure }

/-- Scenario for claim C2: callback 1 throws, all others return normally. -/
def c2cfg : Config := { middleware := [], cbBehavior := fun i => if i == 1 then .throws else .pure }

/-- Scenario for claim C2: internal subscribers 1 (throwing) and 2 on path
`x`, external subscriber 3 on `x`. -/
def c2s : SMState := baseSM (.obj []) [("x", [1, 2])] [("x", [(3, true)])]

/-- Scenario for claim C6: internal subscribers on `a.b` and `a.b.c`; a
hierarchical external subscriber on `a.b` and an exact one on `a.b.c`. -/
def c6s : SMState :=
  baseSM (.obj []) [("a.b", [1]), ("a.b.c", [2])] [("a.b", [(3, true)]), ("a.b.c", [(4, false)])]

/-- Scenario for claim C1: one middleware that calls `setState` on the path
it is transforming whenever the incoming value differs from 42. -/
def c1cfgOnce : Config :=
  { middleware := [.setsSamePathIfDiff (.num 42)], cbBehavior := fun _ => .pure }

/-- Scenario for claim C1: one middleware that unconditionally calls
`setState` on the path it is transforming. -/
def c1cfgLoop : Config :=
  { middleware := [.setsSamePath (.num 42)], cbBehavior := fun _ => .pure }

/-- Empty manager with no subscribers. -/
def c1s : SMState := baseSM (.obj []) [] []

/-- Scenario for claim C3: initial state `{x: 2}`, internal subscriber 1 and
external subscriber 2 on `x`. -/
def c3s : SMState := baseSM (.obj [("x", .num 2)]) [("x", [1])] [("x", [(2, true)])]

/-- Queue states of the C3 counterexample batch. -/
def c3q1 : SMState := queueBatchedUpdate (beginBatch c3s) "x" (.num 1)

/-- Queue state after the second queued write of the C3 counterexample. -/
def c3q2 : SMState := queueBatchedUpdate c3q1 "x" (.num 2)

/-- Scenario for claim C5: empty tree, external subscriber 1 on `x`. -/
def c5s : SMState := baseSM (.obj []) [] [("x", [(1, true)])]

/-- Manager state after the first `setState('x', undefined)` of the C5
counterexample. -/
def c5s1 : SMState := { c5s with state := .obj [("x", .undefinedV)] }

theorem lookupField_setField (fs : List (String × JSValue)) (key : String) (v : JSValue) :
    lookupField (setField fs key v) key = some v := by
  induction fs with
  | nil => simp [setField, lookupField]
  | cons kv rest ih =>
    obtain ⟨k, w⟩ := kv
    rcases eq_or_ne k key with h | h
    · simp [setField, h, lookupField]
    · simp [setField, h, lookupField, ih]

theorem lookupField_of_nodup :
    ∀ (fs : List (String × JSValue)) (k : String) (v : JSValue),
      nodupKeys (fs.map Prod.fst) = true → (k, v) ∈ fs → lookupField fs k = some v := by
  intro fs
  induction fs with
  | nil => intro k v _ h; cases h
  | cons kv rest ih =>
    intro k v hnd hmem
    obtain ⟨k0, v0⟩ := kv
    simp only [List.map_cons, nodupKeys, Bool.and_eq_true, Bool.not_eq_true'] at hnd
    obtain ⟨hnotin, hnd2⟩ := hnd
    rcases List.mem_cons.mp hmem with heq | htail
    · cases heq
      simp [lookupField]
    · have hk0 : k0 ≠ k := by
        intro h
        subst h
        have hm : k0 ∈ rest.map Prod.fst := List.mem_map_of_mem Prod.fst htail
        simp [List.contains, List.elem_iff, hm] at hnotin
      simp [lookupField, hk0, ih k v hnd2 htail]

mutual
theorem deepEquals_refl : ∀ (v : JSValue), WF v = true → deepEquals v v = true
  | .undefinedV, _ => rfl
  | .null, _ => rfl
  | .bool _, _ => by simp [deepEquals]
  | .num _, _ => by simp [deepEquals]
  | .str _, _ => by simp [deepEquals]
  | .sym _, _ => by simp [deepEquals]
  | .arr xs, h => by
      have hl : WFList xs = true := by simpa [WF] using h
      simp [deepEquals, deepEqualsList_refl xs hl]
  | .obj fs, h => by
      have hsplit : nodupKeys (fs.map Prod.fst) = true ∧ WFFields fs = true := by
        simpa [WF] using h
      have hlk : ∀ (k : String) (v : JSValue), (k, v) ∈ fs → lookupField fs k = some v :=
        fun k v hm => lookupField_of_nodup fs k v hsplit.1 hm
      simp [deepEquals, deepEqualsFields_refl_aux fs fs hsplit.2 hlk]

theorem deepEqualsList_refl : ∀ (xs : List JSValue), WFList xs = true → deepEqualsList xs xs = true
  | [], _ => rfl
  | x :: xs, h => by
      have hsplit : WF x = true ∧ WFList xs = true := by simpa [WFList] using h
      simp [deepEqualsList, deepEquals_refl x hsplit.1, deepEqualsList_refl xs hsplit.2]

theorem deepEqualsFields_refl_aux :
    ∀ (as bs : List (String × JSValue)), WFFields as = true →
      (∀ (k : String) (v : JSValue), (k, v) ∈ as → lookupField bs k = some v) →
      deepEqualsFields as bs = true
  | [], _, _, _ => rfl
  | (k, v) :: rest, bs, h, hlk => by
      have hsplit : WF v = true ∧ WFFields rest = true := by simpa [WFFields] using h
      have hk : lookupField bs k = some v := hlk k v (List.mem_cons_self _ _)
      simp [deepEqualsFields, hk, deepEquals_refl v hsplit.1,
            deepEqualsFields_refl_aux rest bs hsplit.2
              (fun k2 v2 hm => hlk k2 v2 (List.mem_cons_of_mem _ hm))]
end

theorem objPath_isObj (c : JSValue) (ps : List String) (h : objPath c ps = true) :
    ∃ gs, c = .obj gs := by
  cases ps with
  | nil => cases c <;> first | exact ⟨_, rfl⟩ | simp [objPath] at h
  | cons k rest =>
    cases rest with
    | nil => cases c <;> first | exact ⟨_, rfl⟩ | simp [objPath] at h
    | cons k2 rest2 => cases c <;> first | exact ⟨_, rfl⟩ | simp [objPath] at h

theorem setIn_obj_shape (fs : List (String × JSValue)) (parts : List String) (v : JSValue) :
    ∃ gs, setIn (.obj fs) parts v = .obj gs := by
  cases parts with
  | nil => exact ⟨setField fs "undefined" v, rfl⟩
  | cons k rest =>
    cases rest with
    | nil => exact ⟨setField fs k v, rfl⟩
    | cons k2 rest2 =>
      exact ⟨setField fs k (setIn (normChild (getProp (.obj fs) k)) (k2 :: rest2) v),
        by simp [setIn, setProp]⟩

theorem getStateGo_setIn :
    ∀ (parts : List String) (root v : JSValue), parts ≠ [] → v ≠ .undefinedV →
      objPath root parts = true → getStateGo (setIn root parts v) parts = some v := by
  intro parts
  induction parts with
  | nil => intro root v hne _ _; exact absurd rfl hne
  | cons k rest ih =>
    intro root v _ hv hobj
    obtain ⟨fs, rfl⟩ := objPath_isObj root (k :: rest) hobj
    cases rest with
    | nil =>
      simp only [setIn, setProp, getStateGo, getProp, lookupField_setField, Option.getD_some]
    | cons k2 rest2 =>
      have hrest : objPath (normChild (getProp (.obj fs) k)) (k2 :: rest2) = true := by
        simpa [objPath] using hobj
      obtain ⟨gs, hgs⟩ := objPath_isObj _ _ hrest
      have hrec : getStateGo (setIn (normChild (getProp (.obj fs) k)) (k2 :: rest2) v)
          (k2 :: rest2) = some v :=
        ih (normChild (getProp (.obj fs) k)) v (by simp) hv hrest
      rw [hgs] at hrec
      obtain ⟨hs, hshape⟩ := setIn_obj_shape gs (k2 :: rest2) v
      rw [hshape] at hrec
      have hunfold : setIn (.obj fs) (k :: k2 :: rest2) v =
          setProp (.obj fs) k (setIn (normChild (getProp (.obj fs) k)) (k2 :: rest2) v) := rfl
      rw [hunfold, hgs, hshape]
      simp only [setProp, getStateGo, getProp, lookupField_setField, Option.getD_some]
      exact hrec

/-- Value read back through `getState` after a write through `setIn`. -/
theorem getStateVal_setIn (s : JSValue) (p : String) (v : JSValue)
    (hvalid : isValidPath p = true) (hparts : getPathParts p ≠ []) (hv : v ≠ .undefinedV)
    (hobj : objPath s (getPathParts p) = true) :
    getStateVal (setIn s (getPathParts p) v) p .null = v := by
  unfold getStateVal
  simp [hvalid, getStateGo_setIn (getPathParts p) s v hparts hv hobj]

theorem runCbList_pure (run : Runner) (cfg : Config) (path : String)
    (hpure : ∀ i, cfg.cbBehavior i = .pure) :
    ∀ (cbs : List Nat) (s : SMState) (events : List Event),
      runCbList run cfg path cbs s events =
        .ok s (events ++ cbs.map (fun cb => .internalNotify path cb)) := by
  intro cbs
  induction cbs with
  | nil => intro s events; simp [runCbList]
  | cons cb rest ih =>
    intro s events
    simp [runCbList, hpure cb, ih]

theorem triggerPathSubscribers_pure (run : Runner) (cfg : Config)
    (hpure : ∀ i, cfg.cbBehavior i = .pure) (path : String) (s : SMState)
    (events : List Event) :
    ∃ evs, triggerPathSubscribers run cfg path s events = .ok s (events ++ evs) := by
  unfold triggerPathSubscribers
  cases h : lookupList s.subscribers path with
  | none => exact ⟨[], by simp⟩
  | some cbs =>
    exact ⟨cbs.map (fun cb => .internalNotify path cb), runCbList_pure run cfg path hpure cbs s events⟩

theorem triggerPaths_pure (run : Runner) (cfg : Config)
    (hpure : ∀ i, cfg.cbBehavior i = .pure) :
    ∀ (qs : List String) (s : SMState) (events : List Event),
      ∃ evs, triggerPaths run cfg qs s events = .ok s (events ++ evs) := by
  intro qs
  induction qs with
  | nil => intro s events; exact ⟨[], by simp [triggerPaths]⟩
  | cons q rest ih =>
    intro s events
    obtain ⟨evs1, h1⟩ := triggerPathSubscribers_pure run cfg hpure q s events
    obtain ⟨evs2, h2⟩ := ih s (events ++ evs1)
    exact ⟨evs1 ++ evs2, by simp [triggerPaths, h1, h2]⟩

theorem runExtSubs_pure (run : Runner) (cfg : Config)
    (hpure : ∀ i, cfg.cbBehavior i = .pure) (changedPath : String) (newV oldV : JSValue)
    (subPath : String) :
    ∀ (subs : List (Nat × Bool)) (s : SMState) (events : List Event),
      ∃ evs, runExtSubs run cfg changedPath newV oldV subPath subs s events =
        .ok s (events ++ evs) := by
  intro subs
  induction subs with
  | nil => intro s events; exact ⟨[], by simp [runExtSubs]⟩
  | cons sub rest ih =>
    intro s events
    obtain ⟨cb, hier⟩ := sub
    by_cases hsn : (if hier then changedPath == subPath ||
        strStartsWith changedPath (subPath ++ ".") else changedPath == subPath) = true
    · obtain ⟨evs2, h2⟩ := ih s (events ++ [.externalNotify subPath cb newV oldV changedPath])
      exact ⟨[.externalNotify subPath cb newV oldV changedPath] ++ evs2,
        by simp [runExtSubs, hsn, hpure cb, h2]⟩
    · obtain ⟨evs2, h2⟩ := ih s events
      exact ⟨evs2, by simp [runExtSubs, hsn, h2]⟩

theorem runExtMap_pure (run : Runner) (cfg : Config)
    (hpure : ∀ i, cfg.cbBehavior i = .pure) (changedPath : String) (newV oldV : JSValue) :
    ∀ (entries : List (String × List (Nat × Bool))) (s : SMState) (events : List Event),
      ∃ evs, runExtMap run cfg changedPath newV oldV entries s events =
        .ok s (events ++ evs) := by
  intro entries
  induction entries with
  | nil => intro s events; exact ⟨[], by simp [runExtMap]⟩
  | cons entry rest ih =>
    intro s events
    obtain ⟨subPath, subs⟩ := entry
    obtain ⟨evs1, h1⟩ := runExtSubs_pure run cfg hpure changedPath newV oldV subPath subs s events
    obtain ⟨evs2, h2⟩ := ih s (events ++ evs1)
    exact ⟨evs1 ++ evs2, by simp [runExtMap, h1, h2]⟩

theorem notifySubscribers_pure (run : Runner) (cfg : Config)
    (hpure : ∀ i, cfg.cbBehavior i = .pure) (path : String) (s : SMState) :
    ∃ evs, notifySubscribers run cfg path s = .ok s evs := by
  unfold notifySubscribers
  obtain ⟨evs, h⟩ := triggerPaths_pure run cfg hpure
    (path :: (ancestorsClosestFirst (getPathParts path) ++ descendantPaths s path)) s []
  exact ⟨evs, by simpa using h⟩

theorem notifyExternalSubscribers_pure (run : Runner) (cfg : Config)
    (hpure : ∀ i, cfg.cbBehavior i = .pure) (changedPath : String) (nv ov : JSValue)
    (s : SMState) :
    ∃ evs, notifyExternalSubscribers run cfg changedPath nv ov s = .ok s evs := by
  unfold notifyExternalSubscribers
  obtain ⟨evs, h⟩ := runExtMap_pure run cfg hpure changedPath nv ov s.externalSubscribers s []
  exact ⟨evs, by simpa using h⟩

/-- With passive subscribers, a whole `setState` write applies the mutation
and returns normally: the final state is the input state with the tree
updated (the notification wave restores `isUpdating` and the
currently-updating set), and events are the mutation followed by
notification events only. -/
theorem setStateF_pure_write (cfg : Config) (s : SMState) (p : String) (v : JSValue)
    (fuel : Nat)
    (hmw : cfg.middleware = []) (hpure : ∀ i, cfg.cbBehavior i = .pure)
    (hvalid : isValidPath p = true) (hcirc : p ∉ s.currentlyUpdating)
    (hbatch : s.isBatching = false) (hupd : s.isUpdating = false)
    (hne : deepEquals (getStateVal s.state p .null) v = false) :
    ∃ evs, setStateF (fuel + 1) cfg s p v =
      .ok { s with state := setIn s.state (getPathParts p) v } ([.mutated p v] ++ evs) := by
  have herase : (s.currentlyUpdating ++ [p]).erase p = s.currentlyUpdating := by
    rw [List.erase_append_right _ hcirc]
    simp
  have hrun : setStateF (fuel + 1) cfg s p v =
      setStateImmediate (fun s1 p1 v1 => setStateF fuel cfg s1 p1 v1) cfg s p v := by
    simp [setStateF, hvalid, hcirc, hbatch]
  rw [hrun]
  unfold setStateImmediate
  rw [hmw]
  simp only [runMwChain, hne, Bool.false_eq_true, if_false, hupd, reduceIte]
  split
  case _ heq =>
    obtain ⟨evsP, h3⟩ := notifySubscribers_pure _ cfg hpure p _
    rw [h3] at heq
    exact Outcome.noConfusion heq
  case _ e s4 evs3 heq =>
    obtain ⟨evsP, h3⟩ := notifySubscribers_pure _ cfg hpure p _
    rw [h3] at heq
    exact Outcome.noConfusion heq
  case _ s4 evs3 heq =>
    obtain ⟨evsP, h3⟩ := notifySubscribers_pure _ cfg hpure p _
    rw [h3] at heq
    injection heq with h4 h5
    subst h4
    split
    case _ heq2 =>
      obtain ⟨evsQ, h6⟩ := notifyExternalSubscribers_pure _ cfg hpure p v
        (getStateVal s.state p .null) _
      rw [h6] at heq2
      exact Outcome.noConfusion heq2
    case _ e s5 evs4 heq2 =>
      obtain ⟨evsQ, h6⟩ := notifyExternalSubscribers_pure _ cfg hpure p v
        (getStateVal s.state p .null) _
      rw [h6] at heq2
      exact Outcome.noConfusion heq2
    case _ s5 evs4 heq2 =>
      obtain ⟨evsQ, h6⟩ := notifyExternalSubscribers_pure _ cfg hpure p v
        (getStateVal s.state p .null) _
      rw [h6] at heq2
      injection heq2 with h7 h8
      subst h7
      refine ⟨evs3 ++ evs4, ?_⟩
      simp [herase, hupd]

/-- Claim C4 (code bug): with AsyncResolver tracking active,
`trackingPromisify` does NOT add a genuine thenable to the active-promise
set (the returned promise is the argument itself, so `promise !== result`
is false), while it DOES add the fresh `Promise.resolve` wrapper of a
non-thenable — the exact opposite of the claim that only genuine
asynchronous operations count toward the completion barrier. -/
theorem c4_tracking_condition_inverted :
    (trackingPromisify true true).addedToActive = false ∧
    (trackingPromisify true false).wrapped = true ∧
    (trackingPromisify true false).addedToActive = true :=
  ⟨rfl, rfl, rfl⟩

/-- Claim C7 (code bug): `newState` never initializes the local-state path.
The guard compares the probe result against a second, freshly created
`Symbol('not-found')`; two distinct symbols are never strictly equal, so the
condition is always false, `setState` is never invoked, and after the first
`newState('count', v)` of component `Counter_1` the path
`__local.Counter_1.count` is still absent (a read of it returns the
default). -/
theorem c7_newState_never_initializes :
    (∀ (initialValue : JSValue) (freshSym : Nat),
      newStateInit (.obj []) "Counter_1" "count" initialValue freshSym = .obj []) ∧
    newStateInit (.obj []) "Counter_1" "count" (.num 5) 0 = .obj [] ∧
    getStateVal (.obj []) (localStatePath "Counter_1" "count") .null = .null := by
  refine ⟨?_, rfl, rfl⟩
  intro initialValue freshSym
  have hprobe : getStateVal (.obj []) (localStatePath "Counter_1" "count")
      (.sym freshSym) = .sym freshSym := rfl
  have hne : (freshSym == freshSym + 1) = false := by
    simp [Nat.succ_ne_self]
  unfold newStateInit
  dsimp only
  rw [hprobe]
  simp [hne]

/-- Claim C8 counterexample: a reactive text binding whose function returns
the skip sentinel `"ignore"` does not leave the element untouched: on its
first run it writes the literal string `"ignore"` into `textContent`,
replacing the previous text. -/
theorem c8_counterexample :
    (updateTextStep { lastTextValue := none, isInitialized := false, textContent := "old" }
      "ignore").textContent = "ignore" ∧ ("ignore" : String) ≠ "old" :=
  ⟨rfl, by decide⟩

/-- Claim C8 amended: the skip sentinel belongs to reactive children
bindings only — `updateChildren` on `"ignore"` changes nothing — while
`_handleReactiveText` contains no sentinel check, so an uninitialized
reactive text binding returning `"ignore"` writes that very string into
`textContent`. -/
theorem c8_amended_text_has_no_sentinel :
    (∀ st : ReactiveChildrenState, updateChildrenStep st (.str "ignore") = st) ∧
    (∀ st : ReactiveTextState, st.isInitialized = false →
      (updateTextStep st "ignore").textContent = "ignore") := by
  refine ⟨fun st => rfl, fun st h => ?_⟩
  simp [updateTextStep, h]

/-- Witness for the amended C8 claim at a concrete binding state. -/
theorem c8_amended_witness :
    (updateTextStep { lastTextValue := none, isInitialized := false, textContent := "before" }
      "ignore").textContent = "ignore" :=
  c8_amended_text_has_no_sentinel.2
    { lastTextValue := none, isInitialized := false, textContent := "before" } rfl

/-- Claim C2 (code bug): with internal subscribers 1 (throwing) and 2 on
path `x` plus external subscriber 3, `setState('x', 1)` mutates the tree,
invokes subscriber 1, and then the catch block's access to the try-scoped
`oldTracking` (source lines 456 and 469) raises a ReferenceError that
escapes to the caller of `setState`: subscriber 2 and the external
subscriber never run, and `isUpdating`/`currentlyUpdating` are left set.
The second conjunct shows the contrast on the external path, whose catch
block is sound: a throwing external subscriber is caught and later external
subscribers of the same wave still run. -/
theorem c2_internal_subscriber_error_escapes :
    setStateF 5 c2cfg c2s "x" (.num 1) =
      .thrown (.referenceError "oldTracking")
        { state := .obj [("x", .num 1)], isUpdating := true, currentlyUpdating := ["x"],
          isBatching := false, batchQueue := [], batchedPaths := [],
          subscribers := [("x", [1, 2])], externalSubscribers := [("x", [(3, true)])],
          currentTracking := none }
        [.mutated "x" (.num 1), .internalNotify "x" 1, .cbError 1] ∧
    runExtSubs dummyRun c2cfg "x" (.num 1) .null "x" [(1, true), (2, true)] c2s [] =
      .ok c2s [.externalNotify "x" 1 (.num 1) .null "x", .cbError 1,
               .externalNotify "x" 2 (.num 1) .null "x"] :=
  ⟨rfl, rfl⟩

/-- Claim C6: writing the sibling path `a.c` notifies no subscriber of
`a.b` (the only event is the mutation), while writing `a.b.c` notifies the
exact internal subscriber of `a.b.c`, the ancestor internal subscriber of
`a.b`, the hierarchical external subscriber of `a.b` and the exact external
subscriber of `a.b.c`.  The last two conjuncts isolate the notification
functions themselves: for the sibling write they deliver nothing, whatever
the old and new values are. -/
theorem c6_path_isolation :
    setStateF 5 pureCfg c6s "a.c" (.num 1) =
      .ok { c6s with state := .obj [("a", .obj [("c", .num 1)])] } [.mutated "a.c" (.num 1)] ∧
    setStateF 5 pureCfg c6s "a.b.c" (.num 2) =
      .ok { c6s with state := .obj [("a", .obj [("b", .obj [("c", .num 2)])])] }
        [.mutated "a.b.c" (.num 2), .internalNotify "a.b.c" 2, .internalNotify "a.b" 1,
         .externalNotify "a.b" 3 (.num 2) .null "a.b.c",
         .externalNotify "a.b.c" 4 (.num 2) .null "a.b.c"] ∧
    (∀ nv ov : JSValue, notifyExternalSubscribers dummyRun pureCfg "a.c" nv ov c6s = .ok c6s []) ∧
    notifySubscribers dummyRun pureCfg "a.c" c6s = .ok c6s [] :=
  ⟨rfl, rfl, fun _ _ => rfl, rfl⟩

/-- Claim C1 counterexample: a middleware that re-entrantly writes 42 to the
very path it is transforming (when the incoming value differs) is not
intercepted by the cycle guard: the nested write is applied in full — the
tree is mutated to 42 mid-call — and no `droppedCircular` warning occurs. -/
theorem c1_counterexample :
    setStateF 10 c1cfgOnce c1s "x" (.num 1) =
      .ok { c1s with state := .obj [("x", .num 1)] }
        [.mutated "x" (.num 42), .mutated "x" (.num 1)] ∧
    (Event.droppedCircular "x") ∉
      [Event.mutated "x" (.num 42), Event.mutated "x" (.num 1)] :=
  ⟨rfl, by simp⟩

/-- Claim C3 counterexample: with initial state `{x: 2}` and subscribers on
`x`, the batch `beginBatch(); setState('x',1); setState('x',2); endBatch()`
delivers NO notification at all: the final queued value 2 deep-equals the
pre-batch value, so `_processBatchedUpdates` skips the write and the
parent-path set stays empty — contradicting "exactly one notification with
value v2". -/
theorem c3_counterexample :
    setStateF 5 pureCfg (beginBatch c3s) "x" (.num 1) = .ok c3q1 [.queued "x" (.num 1)] ∧
    c3q1.state = c3s.state ∧
    setStateF 5 pureCfg c3q1 "x" (.num 2) = .ok c3q2 [.queued "x" (.num 2)] ∧
    c3q2.state = c3s.state ∧
    endBatchF 5 pureCfg c3q2 = .ok c3s [] :=
  ⟨rfl, rfl, rfl, rfl, rfl⟩

/-- Claim C5 counterexample: `setState('x', undefined)` twice in a row
notifies the subscriber of `x` on BOTH calls.  `getState` cannot
distinguish a stored `undefined` from a missing path and returns the
default `null`, and `deepEquals(null, undefined)` is false, so the second
call mutates and notifies again: two notifications, not at most one. -/
theorem c5_counterexample :
    setStateF 5 pureCfg c5s "x" .undefinedV =
      .ok c5s1 [.mutated "x" .undefinedV, .externalNotify "x" 1 .undefinedV .null "x"] ∧
    setStateF 5 pureCfg c5s1 "x" .undefinedV =
      .ok c5s1 [.mutated "x" .undefinedV, .externalNotify "x" 1 .undefinedV .null "x"] ∧
    extValuesTo 1 ([.mutated "x" .undefinedV, .externalNotify "x" 1 .undefinedV .null "x"] ++
      [.mutated "x" .undefinedV, .externalNotify "x" 1 .undefinedV .null "x"]) = [.undefinedV, .undefinedV] :=
  ⟨rfl, rfl, rfl⟩

/-- Claim C10: `getState` never changes the state tree — the only write in
its body goes to the dependency-tracking set — and a missing first segment
makes the traversal yield the caller's default; intermediate records are
created by the write path only, as the concrete conjuncts show: reading
`a.b.c` off an empty tree returns the default and leaves the tree empty,
while `setIn` materializes the intermediate records. -/
theorem c10_getState_reads_only :
    (∀ (s : SMState) (path : String) (d : JSValue) (track : Bool),
      ((getStateOp s path d track).2).state = s.state) ∧
    (∀ (root : JSValue) (k : String) (rest : List String),
      getProp root k = .undefinedV → getStateGo root (k :: rest) = none) ∧
    getStateVal (.obj []) "a.b.c" (.num 9) = .num 9 ∧
    getStateOp (baseSM (.obj []) [] []) "a.b.c" (.num 9) true =
      (.num 9, baseSM (.obj []) [] []) ∧
    getStateOp { baseSM (.obj []) [] [] with currentTracking := some [] } "a.b.c" (.num 9) true =
      (.num 9, { baseSM (.obj []) [] [] with currentTracking := some ["a.b.c"] }) ∧
    getStateVal (setIn (.obj []) ["a", "b", "c"] (.num 5)) "a.b.c" .null = .num 5 ∧
    setIn (.obj []) ["a", "b", "c"] (.num 5) =
      .obj [("a", .obj [("b", .obj [("c", .num 5)])])] := by
  refine ⟨?_, ?_, rfl, rfl, rfl, rfl, rfl⟩
  · intro s path d track
    unfold getStateOp
    split
    · rfl
    · dsimp only
      split <;> rfl
  · intro root k rest h
    simp [getStateGo, h]

/-- Witness for the conditional conjunct of the C10 theorem: a concrete
tree and path with a missing first segment. -/
theorem c10_witness : getStateGo (.obj [("z", .num 1)]) ("a" :: ["b"]) = none :=
  c10_getState_reads_only.2.1 (.obj [("z", .num 1)]) "a" ["b"] rfl

/-- Claim C1 amended: the cycle guard covers only the notification phase.
A `setState` on a path in the currently-updating set — that is, while the
path's own subscriber notification is propagating — is dropped with a
warning and changes nothing; but middleware runs before the path is marked,
so a middleware that synchronously calls `setState` on the path it is
transforming is not intercepted (its write is applied as a full nested
update, see the counterexample), and one that does so unconditionally
recurses without bound: the call exhausts every finite fuel. -/
theorem c1_amended_guard_covers_notification_only :
    (∀ (fuel : Nat) (cfg : Config) (s : SMState) (p : String) (v : JSValue),
      isValidPath p = true → s.currentlyUpdating.contains p = true →
      setStateF (fuel + 1) cfg s p v = .ok s [.droppedCircular p]) ∧
    (∀ (fuel : Nat) (s : SMState) (v : JSValue),
      s.isBatching = false → s.currentlyUpdating.contains "x" = false →
      setStateF fuel c1cfgLoop s "x" v = .outOfFuel) := by
  constructor
  · intro fuel cfg s p v hvalid hcirc
    have hmem : p ∈ s.currentlyUpdating := by simpa using hcirc
    simp [setStateF, hvalid, hmem]
  · intro fuel
    induction fuel with
    | zero => intro s v _ _; rfl
    | succ n ih =>
      intro s v hbatch hcirc
      have hvalid : isValidPath "x" = true := rfl
      have hmem : "x" ∉ s.currentlyUpdating := by simpa using hcirc
      have hrec : setStateF n c1cfgLoop s "x" (.num 42) = .outOfFuel := ih s (.num 42) hbatch hcirc
      simp only [c1cfgLoop] at hrec
      simp [setStateF, hvalid, hmem, hbatch, setStateImmediate, c1cfgLoop, runMwChain, hrec]

/-- Witness for the amended C1 claim: a concrete dropped re-entrant write
and a concrete middleware loop exhausting fuel 7. -/
theorem c1_amended_witness :
    setStateF 4 pureCfg { c1s with currentlyUpdating := ["x"] } "x" (.num 1) =
      .ok { c1s with currentlyUpdating := ["x"] } [.droppedCircular "x"] ∧
    setStateF 7 c1cfgLoop c1s "x" (.num 1) = .outOfFuel :=
  ⟨c1_amended_guard_covers_notification_only.1 3 pureCfg _ "x" (.num 1) rfl rfl,
   c1_amended_guard_covers_notification_only.2 7 c1s (.num 1) rfl rfl⟩

/-- Claim C9: a `setState(p, v)` performed while another path's notification
wave is running (`isUpdating` is true for the whole wave, source lines
377-384) passes the guards when `p` is valid, not itself mid-update and
batching is inactive, runs the (empty) middleware chain, mutates the tree —
but skips the entire notification block, so no internal or external
subscriber is notified by the nested call. -/
theorem c9_nested_setState_mutates_without_notifying
    (cfg : Config) (s : SMState) (p : String) (v : JSValue) (fuel : Nat)
    (hmw : cfg.middleware = [])
    (hvalid : isValidPath p = true)
    (hcirc : s.currentlyUpdating.contains p = false)
    (hbatch : s.isBatching = false)
    (hupd : s.isUpdating = true)
    (hne : deepEquals (getStateVal s.state p .null) v = false) :
    setStateF (fuel + 1) cfg s p v =
      .ok { s with state := setIn s.state (getPathParts p) v } [.mutated p v] := by
  have hmem : p ∉ s.currentlyUpdating := by simpa using hcirc
  simp [setStateF, hvalid, hmem, hbatch, setStateImmediate, hmw, runMwChain, hne, hupd]

/-- Witness for C9: during a wave updating `x`, a nested write to `y`
mutates the tree and delivers no notification, although `y` has an internal
and an external subscriber. -/
theorem c9_witness :
    setStateF 3 pureCfg
      { baseSM (.obj [("x", .num 1)]) [("y", [5])] [("y", [(6, true)])] with
        isUpdating := true, currentlyUpdating := ["x"] } "y" (.num 7) =
      .ok { baseSM (.obj [("x", .num 1), ("y", .num 7)]) [("y", [5])] [("y", [(6, true)])] with
            isUpdating := true, currentlyUpdating := ["x"] } [.mutated "y" (.num 7)] :=
  c9_nested_setState_mutates_without_notifying pureCfg
    { baseSM (.obj [("x", .num 1)]) [("y", [5])] [("y", [(6, true)])] with
      isUpdating := true, currentlyUpdating := ["x"] } "y" (.num 7) 2 rfl rfl rfl rfl rfl rfl

theorem setStateF_pure_noop (cfg : Config) (s : SMState) (p : String) (v : JSValue)
    (fuel : Nat) (hmw : cfg.middleware = [])
    (hvalid : isValidPath p = true) (hcirc : p ∉ s.currentlyUpdating)
    (hbatch : s.isBatching = false)
    (heq : deepEquals (getStateVal s.state p .null) v = true) :
    setStateF (fuel + 1) cfg s p v = .ok s [] := by
  simp [setStateF, hvalid, hcirc, hbatch, setStateImmediate, hmw, runMwChain, heq]

/-- Claim C5 amended: for a valid path with at least one segment, a
well-formed value other than undefined, no middleware, passive subscribers
and a write traversal meeting only plain objects, the second of two
consecutive identical `setState` calls is a complete no-op — after the
first call the stored value deep-equals the written value, so the manager
returns the same state with no mutation and no notification; subscribers
can only have been notified by the first call. -/
theorem c5_amended_second_write_noop (cfg : Config) (s : SMState) (p : String) (v : JSValue)
    (fuel1 fuel2 : Nat)
    (hmw : cfg.middleware = []) (hpure : ∀ i, cfg.cbBehavior i = .pure)
    (hvalid : isValidPath p = true) (hparts : getPathParts p ≠ [])
    (hcirc : p ∉ s.currentlyUpdating) (hbatch : s.isBatching = false)
    (hupd : s.isUpdating = false) (hwf : WF v = true) (hv : v ≠ .undefinedV)
    (hobj : objPath s.state (getPathParts p) = true) :
    ∃ s1 evs1, setStateF (fuel1 + 1) cfg s p v = .ok s1 evs1 ∧
      setStateF (fuel2 + 1) cfg s1 p v = .ok s1 [] := by
  by_cases hcase : deepEquals (getStateVal s.state p .null) v = true
  · exact ⟨s, [], setStateF_pure_noop cfg s p v fuel1 hmw hvalid hcirc hbatch hcase,
      setStateF_pure_noop cfg s p v fuel2 hmw hvalid hcirc hbatch hcase⟩
  · have hne : deepEquals (getStateVal s.state p .null) v = false := by
      simpa using hcase
    obtain ⟨evs, hfirst⟩ :=
      setStateF_pure_write cfg s p v fuel1 hmw hpure hvalid hcirc hbatch hupd hne
    refine ⟨{ s with state := setIn s.state (getPathParts p) v }, [.mutated p v] ++ evs,
      hfirst, ?_⟩
    have hget : getStateVal (setIn s.state (getPathParts p) v) p .null = v :=
      getStateVal_setIn s.state p v hvalid hparts hv hobj
    have heq2 : deepEquals
        (getStateVal ({ s with state := setIn s.state (getPathParts p) v } : SMState).state
          p .null) v = true := by
      simpa [hget] using deepEquals_refl v hwf
    exact setStateF_pure_noop cfg _ p v fuel2 hmw hvalid hcirc hbatch heq2

/-- Witness for the amended C5 claim: two identical writes of 7 to `a.b`
with an external subscriber; the second call returns the unchanged manager
state and no events at all. -/
theorem c5_amended_witness :
    ∃ s1 evs1,
      setStateF 3 pureCfg (baseSM (.obj []) [] [("a.b", [(1, true)])]) "a.b" (.num 7) =
        .ok s1 evs1 ∧
      setStateF 3 pureCfg s1 "a.b" (.num 7) = .ok s1 [] :=
  c5_amended_second_write_noop pureCfg (baseSM (.obj []) [] [("a.b", [(1, true)])]) "a.b"
    (.num 7) 2 2 rfl (fun _ => rfl) rfl (by decide) (List.not_mem_nil _) rfl rfl rfl
    (fun h => JSValue.noConfusion h) rfl

theorem count_dedupKeepFirstAux :
    ∀ (l seen : List String) (x : String),
      (dedupKeepFirstAux seen l).count x = if x ∈ l ∧ x ∉ seen then 1 else 0 := by
  intro l
  induction l with
  | nil => intro seen x; simp [dedupKeepFirstAux]
  | cons y rest ih =>
    intro seen x
    by_cases hy : y ∈ seen
    · have hyc : seen.contains y = true := by simp [List.contains, List.elem_iff, hy]
      rw [dedupKeepFirstAux, if_pos hyc, ih seen x]
      by_cases hxy : x = y
      · subst hxy
        simp [hy]
      · simp [List.mem_cons, hxy]
    · have hyc : ¬ (seen.contains y = true) := by simp [List.contains, List.elem_iff, hy]
      rw [dedupKeepFirstAux, if_neg hyc, List.count_cons, ih (seen ++ [y]) x]
      by_cases hxy : x = y
      · subst hxy
        simp [List.mem_append, hy]
      · have hbeq : (y == x) = false := by simp [Ne.symm hxy]
        simp only [List.mem_append, List.mem_cons, List.mem_singleton, hbeq, hxy]
        by_cases hxr : x ∈ rest <;> by_cases hxs : x ∈ seen <;> simp_all

theorem count_dedupKeepFirst (l : List String) (x : String) :
    (dedupKeepFirst l).count x = if x ∈ l then 1 else 0 := by
  rw [dedupKeepFirst, count_dedupKeepFirstAux]
  simp

theorem joinDot_mem_parentPrefixPaths (parts : List String) (hne : parts ≠ []) :
    joinDot parts ∈ parentPrefixPaths parts := by
  unfold parentPrefixPaths
  have hlen : 0 < parts.length := List.length_pos.mpr hne
  refine List.mem_map.mpr ⟨parts.length - 1, List.mem_range.mpr (by omega), ?_⟩
  rw [show parts.length - 1 + 1 = parts.length from by omega, List.take_length]

theorem internalNotifyCount_append (cb : Nat) (a b : List Event) :
    internalNotifyCount cb (a ++ b) = internalNotifyCount cb a + internalNotifyCount cb b := by
  simp [internalNotifyCount, List.filter_append]

theorem extValuesTo_append (cb : Nat) (a b : List Event) :
    extValuesTo cb (a ++ b) = extValuesTo cb a ++ extValuesTo cb b := by
  simp [extValuesTo, List.filterMap_append]

theorem c3Block_flatMap_counts (p : String) (cbi cbe : Nat) (nv : JSValue) :
    ∀ qs : List String,
      internalNotifyCount cbi (qs.flatMap (c3Block p cbi cbe nv)) = qs.count p ∧
      extValuesTo cbe (qs.flatMap (c3Block p cbi cbe nv)) =
        List.replicate (qs.count p) nv := by
  intro qs
  induction qs with
  | nil => simp [internalNotifyCount, extValuesTo]
  | cons q rest ih =>
    refine ⟨?_, ?_⟩
    · rw [List.flatMap_cons, internalNotifyCount_append, ih.1, List.count_cons]
      by_cases hq : q = p
      · subst hq
        simp [c3Block, internalNotifyCount]
        omega
      · simp [c3Block, internalNotifyCount, hq]
    · rw [List.flatMap_cons, extValuesTo_append, ih.2, List.count_cons]
      by_cases hq : q = p
      · subst hq
        simp [c3Block, extValuesTo, List.replicate_succ]
      · simp [c3Block, extValuesTo, hq]

theorem notifyBatchPaths_single (run : Runner) (cfg : Config)
    (hpure : ∀ i, cfg.cbBehavior i = .pure) (p : String) (cbi cbe : Nat) (hier : Bool) :
    ∀ (qs : List String) (s : SMState) (events : List Event),
      s.subscribers = [(p, [cbi])] → s.externalSubscribers = [(p, [(cbe, hier)])] →
      notifyBatchPaths run cfg qs s events =
        .ok s (events ++ qs.flatMap (c3Block p cbi cbe (getStateVal s.state p .null))) := by
  intro qs
  induction qs with
  | nil => intro s events _ _; simp [notifyBatchPaths]
  | cons q rest ih =>
    intro s events hsubs hext
    by_cases hq : q = p
    · subst hq
      have htrig : triggerPathSubscribers run cfg q s events =
          .ok s (events ++ [.internalNotify q cbi]) := by
        unfold triggerPathSubscribers
        simp [hsubs, lookupList, runCbList_pure run cfg q hpure]
      have hextlist : (lookupList s.externalSubscribers q).getD [] = [(cbe, hier)] := by
        simp [hext, lookupList]
      have hextrun : extNotifyBatchSubs run cfg q [(cbe, hier)] s
          (events ++ [.internalNotify q cbi]) =
          .ok s ((events ++ [.internalNotify q cbi]) ++
            [.externalNotify q cbe (getStateVal s.state q .null) .null q]) := by
        simp [extNotifyBatchSubs, hpure cbe]
      rw [notifyBatchPaths, htrig]
      simp only [hextlist, hextrun]
      rw [ih s _ hsubs hext]
      simp [c3Block, List.flatMap_cons]
    · have hbeq : (p == q) = false := by simp [Ne.symm hq]
      have htrig : triggerPathSubscribers run cfg q s events = .ok s events := by
        unfold triggerPathSubscribers
        simp [hsubs, lookupList, hbeq]
      have hextlist : (lookupList s.externalSubscribers q).getD [] = [] := by
        simp [hext, lookupList, hbeq]
      rw [notifyBatchPaths, htrig]
      simp only [hextlist]
      rw [show extNotifyBatchSubs run cfg q [] s events = .ok s events from rfl]
      dsimp only
      rw [ih s events hsubs hext]
      simp [c3Block, List.flatMap_cons, hq]

theorem applyBatch_one (run : Runner) (cfg : Config) (hmw : cfg.middleware = [])
    (p : String) (v2 : JSValue) (sY : SMState)
    (hne : deepEquals (getStateVal sY.state p .null) v2 = false) :
    applyBatchUpdates run cfg [(p, v2)] sY [] [] =
      .done { sY with state := setIn sY.state (getPathParts p) v2 } [.mutated p v2] [p] := by
  simp [applyBatchUpdates, hmw, runMwChain, hne]

theorem processBatched_single (run : Runner) (cfg : Config)
    (hmw : cfg.middleware = []) (hpure : ∀ i, cfg.cbBehavior i = .pure)
    (p : String) (cbi cbe : Nat) (hier : Bool) (sx : SMState) (v2 : JSValue)
    (hq : sx.batchQueue = [(p, v2)])
    (hsubs : sx.subscribers = [(p, [cbi])])
    (hext : sx.externalSubscribers = [(p, [(cbe, hier)])])
    (hvalid : isValidPath p = true) (hparts : getPathParts p ≠ [])
    (hv2 : v2 ≠ .undefinedV)
    (hne : deepEquals (getStateVal sx.state p .null) v2 = false)
    (hobj : objPath sx.state (getPathParts p) = true) :
    processBatchedUpdates run cfg sx =
      .ok ({ sx with state := setIn sx.state (getPathParts p) v2, batchQueue := [], batchedPaths := [] } : SMState)
        ([.mutated p v2] ++
          (dedupKeepFirst (parentPrefixPaths (getPathParts p))).flatMap
            (c3Block p cbi cbe v2)) := by
  unfold processBatchedUpdates
  rw [hq]
  dsimp only
  have hgroups : mapSetAll [] [(p, v2)] = [(p, v2)] := by simp [mapSetAll]
  rw [hgroups]
  rw [applyBatch_one run cfg hmw p v2
    ({ sx with isUpdating := true, batchQueue := [], batchedPaths := [] } : SMState) hne]
  dsimp only
  have hflat : ([p] : List String).flatMap (fun q => parentPrefixPaths (getPathParts q)) =
      parentPrefixPaths (getPathParts p) := by simp
  rw [hflat]
  rw [notifyBatchPaths_single run cfg hpure p cbi cbe hier
    (dedupKeepFirst (parentPrefixPaths (getPathParts p)))
    ({ sx with state := setIn sx.state (getPathParts p) v2, batchQueue := [], batchedPaths := [] } : SMState)
    [.mutated p v2] hsubs hext]
  have hval : getStateVal (setIn sx.state (getPathParts p) v2) p .null = v2 :=
    getStateVal_setIn sx.state p v2 hvalid hparts hv2 hobj
  simp [hval]

/-- Claim C3 amended: for a canonical valid path `p` whose last queued value
`v2` is not undefined and not deep-equal to the pre-batch value, the batch
`beginBatch(); setState(p, v1); setState(p, v2); endBatch()` queues both
writes without mutating or notifying (the queue keeps only the last write
per path), and `endBatch` applies the single write and delivers exactly one
internal trigger and exactly one external notification to the subscribers
of `p`, the external one carrying `v2` — never `v1`. -/
theorem c3_amended_batch_coalescing (cfg : Config) (s : SMState) (p : String)
    (v1 v2 : JSValue) (cbi cbe : Nat) (hier : Bool) (f1 f2 f3 : Nat)
    (hmw : cfg.middleware = []) (hpure : ∀ i, cfg.cbBehavior i = .pure)
    (hvalid : isValidPath p = true) (hparts : getPathParts p ≠ [])
    (hcanon : joinDot (getPathParts p) = p)
    (hsubs : s.subscribers = [(p, [cbi])])
    (hext : s.externalSubscribers = [(p, [(cbe, hier)])])
    (hcirc : p ∉ s.currentlyUpdating)
    (hv2 : v2 ≠ .undefinedV)
    (hne : deepEquals (getStateVal s.state p .null) v2 = false)
    (hobj : objPath s.state (getPathParts p) = true) :
    ∃ sF evs,
      setStateF (f1 + 1) cfg (beginBatch s) p v1 =
        .ok (queueBatchedUpdate (beginBatch s) p v1) [.queued p v1] ∧
      (queueBatchedUpdate (beginBatch s) p v1).state = s.state ∧
      setStateF (f2 + 1) cfg (queueBatchedUpdate (beginBatch s) p v1) p v2 =
        .ok (queueBatchedUpdate (queueBatchedUpdate (beginBatch s) p v1) p v2)
          [.queued p v2] ∧
      (queueBatchedUpdate (queueBatchedUpdate (beginBatch s) p v1) p v2).state = s.state ∧
      (queueBatchedUpdate (queueBatchedUpdate (beginBatch s) p v1) p v2).batchQueue =
        [(p, v2)] ∧
      endBatchF f3 cfg (queueBatchedUpdate (queueBatchedUpdate (beginBatch s) p v1) p v2) =
        .ok sF evs ∧
      sF.state = setIn s.state (getPathParts p) v2 ∧
      internalNotifyCount cbi evs = 1 ∧
      extValuesTo cbe evs = [v2] := by
  have hq2queue : (queueBatchedUpdate (queueBatchedUpdate (beginBatch s) p v1) p v2).batchQueue
      = [(p, v2)] := by
    simp [queueBatchedUpdate, beginBatch]
  refine ⟨{ queueBatchedUpdate (queueBatchedUpdate (beginBatch s) p v1) p v2 with isBatching := false, state := setIn s.state (getPathParts p) v2, batchQueue := [], batchedPaths := [] },
    [.mutated p v2] ++ (dedupKeepFirst (parentPrefixPaths (getPathParts p))).flatMap (c3Block p cbi cbe v2),
    ?_, rfl, ?_, rfl, hq2queue, ?_, rfl, ?_, ?_⟩
  · simp [setStateF, hvalid, hcirc, beginBatch]
  · simp [setStateF, hvalid, hcirc, beginBatch, queueBatchedUpdate]
  · show endBatchF f3 cfg _ = _
    rw [endBatchF]
    rw [if_neg (by simp [queueBatchedUpdate, beginBatch])]
    dsimp only
    rw [if_neg (by simp [hq2queue])]
    exact processBatched_single _ cfg hmw hpure p cbi cbe hier _ v2
      (by simpa using hq2queue) hsubs hext hvalid hparts hv2 hne hobj
  · rw [internalNotifyCount_append,
      (c3Block_flatMap_counts p cbi cbe v2
        (dedupKeepFirst (parentPrefixPaths (getPathParts p)))).1,
      count_dedupKeepFirst]
    have hmem : p ∈ parentPrefixPaths (getPathParts p) := by
      have h := joinDot_mem_parentPrefixPaths (getPathParts p) hparts
      rwa [hcanon] at h
    simp [internalNotifyCount, hmem]
  · rw [extValuesTo_append,
      (c3Block_flatMap_counts p cbi cbe v2
        (dedupKeepFirst (parentPrefixPaths (getPathParts p)))).2,
      count_dedupKeepFirst]
    have hmem : p ∈ parentPrefixPaths (getPathParts p) := by
      have h := joinDot_mem_parentPrefixPaths (getPathParts p) hparts
      rwa [hcanon] at h
    simp [extValuesTo, hmem, List.replicate]

/-- Witness for the amended C3 claim: the batch `x := 1` then `x := 2` over
an empty tree with one internal and one external subscriber of `x`. -/
theorem c3_amended_witness :
    ∃ sF evs,
      setStateF 5 pureCfg (beginBatch (baseSM (.obj []) [("x", [1])] [("x", [(2, true)])]))
        "x" (.num 1) =
        .ok (queueBatchedUpdate (beginBatch (baseSM (.obj []) [("x", [1])] [("x", [(2, true)])]))
          "x" (.num 1)) [.queued "x" (.num 1)] ∧
      (queueBatchedUpdate (beginBatch (baseSM (.obj []) [("x", [1])] [("x", [(2, true)])]))
        "x" (.num 1)).state = (baseSM (.obj []) [("x", [1])] [("x", [(2, true)])]).state ∧
      setStateF 5 pureCfg (queueBatchedUpdate
          (beginBatch (baseSM (.obj []) [("x", [1])] [("x", [(2, true)])])) "x" (.num 1))
        "x" (.num 2) =
        .ok (queueBatchedUpdate (queueBatchedUpdate
          (beginBatch (baseSM (.obj []) [("x", [1])] [("x", [(2, true)])])) "x" (.num 1))
          "x" (.num 2)) [.queued "x" (.num 2)] ∧
      (queueBatchedUpdate (queueBatchedUpdate
        (beginBatch (baseSM (.obj []) [("x", [1])] [("x", [(2, true)])])) "x" (.num 1))
        "x" (.num 2)).state = (baseSM (.obj []) [("x", [1])] [("x", [(2, true)])]).state ∧
      (queueBatchedUpdate (queueBatchedUpdate
        (beginBatch (baseSM (.obj []) [("x", [1])] [("x", [(2, true)])])) "x" (.num 1))
        "x" (.num 2)).batchQueue = [("x", .num 2)] ∧
      endBatchF 5 pureCfg (queueBatchedUpdate (queueBatchedUpdate
        (beginBatch (baseSM (.obj []) [("x", [1])] [("x", [(2, true)])])) "x" (.num 1))
        "x" (.num 2)) = .ok sF evs ∧
      sF.state = setIn (baseSM (.obj []) [("x", [1])] [("x", [(2, true)])]).state
        (getPathParts "x") (.num 2) ∧
      internalNotifyCount 1 evs = 1 ∧
      extValuesTo 2 evs = [.num 2] :=
  c3_amended_batch_coalescing pureCfg (baseSM (.obj []) [("x", [1])] [("x", [(2, true)])])
    "x" (.num 1) (.num 2) 1 2 true 4 4 5 rfl (fun _ => rfl) rfl (by decide) rfl rfl rfl
    (List.not_mem_nil _) (fun h => JSValue.noConfusion h) rfl rfl

end Juris
